import Mathlib

/-!
Shallow embedding of `src/detect_onset.py` (`find_speech_onset`).

The pipeline reads a WAV file, converts the samples to floats, denoises the
signal, runs onset detection, converts the detected onset times to
milliseconds, rounds them to one decimal (numpy's round-half-to-even),
filters out onsets earlier than `nothing_before`, prints a summary line that
indexes the first three filtered onsets (an IndexError when fewer than three
survive), optionally plots the denoised waveform with vertical markers at the
filtered onset values, and returns the first three filtered onsets.

External collaborators (the WAV decoder `scipy.io.wavfile.read`, the noise
reducer `noisereduce.reduce_noise`, and the detector
`librosa.onset.onset_detect`) are black boxes per the spec; they are modelled
as explicit parameters.  Sample values and times are embedded as exact
rationals.  Console output and plotting side effects are recorded in the
`RunResult` structure; Python exceptions that abort the call are modelled by
the `PyError` component of the result.
-/

namespace DetectOnset

/-- Python errors that can abort `find_speech_onset`:
an I/O or decode error from `wavfile.read`, the `IndexError` raised while
formatting the summary f-string when fewer than three onsets survive, and the
`ValueError` raised by `np.min` / `np.max` on an empty array. -/
inductive PyError where
  | ioError (msg : String)
  | indexError
  | valueError
deriving DecidableEq

/-- `numpy` rounding of a rational to the nearest integer, ties to even
(banker's rounding), as used by `np.round`. -/
def roundHalfEven (x : ℚ) : ℤ :=
  if x - ⌊x⌋ < 1/2 then ⌊x⌋
  else if 1/2 < x - ⌊x⌋ then ⌊x⌋ + 1
  else if ⌊x⌋ % 2 = 0 then ⌊x⌋ else ⌊x⌋ + 1

/-- `np.round(x, 1)`: round to one decimal place, ties to even. -/
def round1 (x : ℚ) : ℚ := (roundHalfEven (x * 10) : ℚ) / 10

/-- `signal.astype(np.float32)` applied to the integer PCM samples returned by
`wavfile.read`: the samples as rationals. -/
def floatSignal (raw : List ℤ) : List ℚ := raw.map (fun (s : ℤ) => (s : ℚ))

/-- Lines 44 of the source: `denoised_signal = nr.reduce_noise(y=signal, sr=rate)`
applied to the float-converted signal; `reduce_noise` is the external noise
reducer. -/
def denoised_signal (reduce_noise : List ℚ → ℕ → List ℚ) (raw : List ℤ)
    (rate : ℕ) : List ℚ :=
  reduce_noise (floatSignal raw) rate

/-- Lines 50-54 of the source: convert the detected onset times (seconds) to
milliseconds (`onsets *= 1000`), round to one decimal
(`onsets = np.round(onsets, 1)`), and keep only onsets at or after the
threshold (`onsets = onsets[onsets >= nothing_before]`). -/
def filteredOnsets (onsetsSec : List ℚ) (nothing_before : ℚ) : List ℚ :=
  let onsetsMs := onsetsSec.map (fun t => t * 1000)
  let onsetsRounded := onsetsMs.map round1
  onsetsRounded.filter (fun t => nothing_before ≤ t)

/-- The f-string of lines 57-59 / 83-85: indexes `onsets[0]`, `onsets[1]`,
`onsets[2]`, raising `IndexError` when fewer than three onsets survive; the
string is built before anything is printed. -/
def formatMsg (onsets : List ℚ) : Except PyError String :=
  match onsets with
  | a :: b :: c :: _ =>
      .ok ("First three onsets are: " ++ toString a ++ "ms, " ++ toString b
        ++ "ms, and " ++ toString c ++ "ms")
  | _ => .error .indexError

/-- `np.min` on a 1-D array: fails (`ValueError`) on an empty array. -/
def listMin : List ℚ → Option ℚ
  | [] => none
  | x :: xs => some (xs.foldl min x)

/-- `np.max` on a 1-D array: fails (`ValueError`) on an empty array. -/
def listMax : List ℚ → Option ℚ
  | [] => none
  | x :: xs => some (xs.foldl max x)

/-- Line 61 of the source: `time = np.arange(len(denoised_signal)) / rate`,
the x axis of the plot, in seconds. -/
def timeAxis (n : ℕ) (rate : ℕ) : List ℚ :=
  (List.range n).map (fun i => (i : ℚ) / (rate : ℚ))

/-- The data handed to the plotting surface (lines 64-76): the time axis, the
waveform, the x positions given to `plt.vlines`, and the `ymin` / `ymax`
bounds from `np.min` / `np.max` of the denoised signal. -/
structure PlotData where
  time : List ℚ
  waveform : List ℚ
  vlineXs : List ℚ
  ymin : ℚ
  ymax : ℚ
deriving DecidableEq

instance {ε α : Type} [DecidableEq ε] [DecidableEq α] :
    DecidableEq (Except ε α) := fun
  | .error e, .error f =>
      if h : e = f then .isTrue (by rw [h]) else .isFalse (by simp [h])
  | .error _, .ok _ => .isFalse (by simp)
  | .ok _, .error _ => .isFalse (by simp)
  | .ok a, .ok b =>
      if h : a = b then .isTrue (by rw [h]) else .isFalse (by simp [h])

/-- Observable outcome of one call: the console lines printed, the figures
shown, and either the returned array or the Python error that aborted the
call. -/
structure RunResult where
  console : List String
  plots : List PlotData
  result : Except PyError (List ℚ)
deriving DecidableEq

/-- Lines 47-86 of the source, from onset detection on: detect onsets on the
denoised signal, convert / round / filter them, then either branch of
`if plotted`.  Both branches first evaluate the summary f-string (which can
raise `IndexError`) and print it; the plotting branch additionally builds the
time axis, takes `np.min` / `np.max` of the denoised signal (raising
`ValueError` when it is empty), draws the waveform with vertical markers at
the filtered onset values, and shows the figure.  Both branches return
`onsets[0:3]`. -/
def pipelineFromDenoised (denoised : List ℚ) (rate : ℕ)
    (onset_detect : List ℚ → ℕ → List ℚ)
    (nothing_before : ℚ) (plotted : Bool) : RunResult :=
  let onsets := filteredOnsets (onset_detect denoised rate) nothing_before
  if plotted then
    match formatMsg onsets with
    | .error e => ⟨[], [], .error e⟩
    | .ok msg =>
      match listMin denoised, listMax denoised with
      | some lowest, some highest =>
          ⟨[msg],
            [⟨timeAxis denoised.length rate, denoised, onsets, lowest, highest⟩],
            .ok (onsets.take 3)⟩
      | _, _ => ⟨[msg], [], .error .valueError⟩
  else
    match formatMsg onsets with
    | .error e => ⟨[], [], .error e⟩
    | .ok msg => ⟨[msg], [], .ok (onsets.take 3)⟩

/-- `find_speech_onset(wav_path, nothing_before, plotted)` (lines 8-86).
`wavRead` is the outcome of `wavfile.read(wav_path)` for the given path: a
sample rate and integer samples, or an I/O / decode error, which propagates
before anything else runs.  `reduce_noise` and `onset_detect` are the external
noise reducer and onset detector. -/
def find_speech_onset (wavRead : Except PyError (ℕ × List ℤ))
    (reduce_noise : List ℚ → ℕ → List ℚ)
    (onset_detect : List ℚ → ℕ → List ℚ)
    (nothing_before : ℚ) (plotted : Bool) : RunResult :=
  match wavRead with
  | .error e => ⟨[], [], .error e⟩
  | .ok (rate, raw) =>
      pipelineFromDenoised (denoised_signal reduce_noise raw rate) rate
        onset_detect nothing_before plotted

/-! ### Basic facts about the rounding function -/

theorem floor_le_roundHalfEven (x : ℚ) : ⌊x⌋ ≤ roundHalfEven x := by
  unfold roundHalfEven
  split_ifs <;> omega

theorem roundHalfEven_le_floor_add_one (x : ℚ) : roundHalfEven x ≤ ⌊x⌋ + 1 := by
  unfold roundHalfEven
  split_ifs <;> omega

theorem roundHalfEven_mono {x y : ℚ} (h : x ≤ y) :
    roundHalfEven x ≤ roundHalfEven y := by
  rcases lt_or_le ⌊x⌋ ⌊y⌋ with hf | hf
  · calc roundHalfEven x ≤ ⌊x⌋ + 1 := roundHalfEven_le_floor_add_one x
      _ ≤ ⌊y⌋ := by omega
      _ ≤ roundHalfEven y := floor_le_roundHalfEven y
  · have hfe : ⌊x⌋ = ⌊y⌋ := le_antisymm (Int.floor_le_floor h) hf
    unfold roundHalfEven
    rw [hfe]
    split_ifs <;> first
      | omega
      | linarith

theorem roundHalfEven_nonneg {x : ℚ} (h : 0 ≤ x) : 0 ≤ roundHalfEven x :=
  le_trans (Int.floor_nonneg.mpr h) (floor_le_roundHalfEven x)

theorem round1_mono {x y : ℚ} (h : x ≤ y) : round1 x ≤ round1 y := by
  unfold round1
  have h10 : x * 10 ≤ y * 10 := by linarith
  have hr := roundHalfEven_mono h10
  have hr' : ((roundHalfEven (x * 10) : ℚ)) ≤ (roundHalfEven (y * 10) : ℚ) := by
    exact_mod_cast hr
  linarith

theorem round1_nonneg {x : ℚ} (h : 0 ≤ x) : 0 ≤ round1 x := by
  unfold round1
  have hr : (0 : ℚ) ≤ (roundHalfEven (x * 10) : ℚ) := by
    exact_mod_cast roundHalfEven_nonneg (by linarith : (0:ℚ) ≤ x * 10)
  linarith

theorem round1_tenth (x : ℚ) : ∃ k : ℤ, round1 x = (k : ℚ) / 10 :=
  ⟨roundHalfEven (x * 10), rfl⟩

/-! ### The summary message and its IndexError -/

theorem formatMsg_error_of_short :
    ∀ {l : List ℚ}, l.length < 3 → formatMsg l = .error .indexError
  | [], _ => rfl
  | [_], _ => rfl
  | [_, _], _ => rfl
  | _ :: _ :: _ :: _, h => by
      simp only [List.length_cons, List.length_nil] at h
      omega

theorem formatMsg_ok_of_three :
    ∀ {l : List ℚ}, 3 ≤ l.length → ∃ s, formatMsg l = .ok s
  | _ :: _ :: _ :: _, _ => ⟨_, rfl⟩
  | [], h => by simp at h
  | [_], h => by simp at h
  | [_, _], h => by
      simp only [List.length_cons, List.length_nil] at h
      omega

theorem formatMsg_three_of_ok :
    ∀ {l : List ℚ} {s : String}, formatMsg l = .ok s → 3 ≤ l.length
  | _ :: _ :: _ :: _, _, _ => by
      simp only [List.length_cons]
      omega
  | [], _, h => by simp [formatMsg] at h
  | [_], _, h => by simp [formatMsg] at h
  | [_, _], _, h => by simp [formatMsg] at h

/-! ### Characterizing the pipeline's outcome -/

theorem listMin_of_ne_nil {d : List ℚ} (h : d ≠ []) : ∃ lo, listMin d = some lo := by
  cases d with
  | nil => exact absurd rfl h
  | cons x xs => exact ⟨_, rfl⟩

theorem listMax_of_ne_nil {d : List ℚ} (h : d ≠ []) : ∃ hi, listMax d = some hi := by
  cases d with
  | nil => exact absurd rfl h
  | cons x xs => exact ⟨_, rfl⟩

theorem pipeline_eq_of_short {d : List ℚ} {rate : ℕ}
    {od : List ℚ → ℕ → List ℚ} {nb : ℚ} (pl : Bool)
    (h : (filteredOnsets (od d rate) nb).length < 3) :
    pipelineFromDenoised d rate od nb pl = ⟨[], [], .error .indexError⟩ := by
  cases pl <;> simp [pipelineFromDenoised, formatMsg_error_of_short h]

theorem result_ok_imp {d : List ℚ} {rate : ℕ} {od : List ℚ → ℕ → List ℚ}
    {nb : ℚ} {pl : Bool} {r : List ℚ}
    (h : (pipelineFromDenoised d rate od nb pl).result = .ok r) :
    r = (filteredOnsets (od d rate) nb).take 3 := by
  by_cases hlen : (filteredOnsets (od d rate) nb).length < 3
  · rw [pipeline_eq_of_short pl hlen] at h
    simp at h
  · push_neg at hlen
    obtain ⟨s, hs⟩ := formatMsg_ok_of_three hlen
    cases pl with
    | false =>
        simp only [pipelineFromDenoised, Bool.false_eq_true, if_false, hs] at h
        simpa using h.symm
    | true =>
        simp only [pipelineFromDenoised, if_true, hs] at h
        cases d with
        | nil => simp [listMin] at h
        | cons x xs =>
            simp only [listMin, listMax] at h
            simpa using h.symm

theorem result_ok_length {d : List ℚ} {rate : ℕ} {od : List ℚ → ℕ → List ℚ}
    {nb : ℚ} {pl : Bool} {r : List ℚ}
    (h : (pipelineFromDenoised d rate od nb pl).result = .ok r) :
    3 ≤ (filteredOnsets (od d rate) nb).length := by
  by_contra hlen
  push_neg at hlen
  rw [pipeline_eq_of_short pl hlen] at h
  simp at h

theorem pipeline_congr_filtered {d : List ℚ} {rate : ℕ}
    {od : List ℚ → ℕ → List ℚ} {nb nb' : ℚ} (pl : Bool)
    (h : filteredOnsets (od d rate) nb = filteredOnsets (od d rate) nb') :
    pipelineFromDenoised d rate od nb pl = pipelineFromDenoised d rate od nb' pl := by
  unfold pipelineFromDenoised
  rw [h]

/-! ### Order and membership facts about the filtered onset list -/

theorem sorted_map_round1_ms {l : List ℚ} (h : l.Sorted (· ≤ ·)) :
    ((l.map (fun t => t * 1000)).map round1).Sorted (· ≤ ·) := by
  have h1 : (l.map (fun t => t * 1000)).Pairwise (· ≤ ·) :=
    List.Pairwise.map _ (fun a b hab => by linarith) h
  exact List.Pairwise.map _ (fun a b hab => round1_mono hab) h1

theorem filteredOnsets_sorted {l : List ℚ} (h : l.Sorted (· ≤ ·)) (nb : ℚ) :
    (filteredOnsets l nb).Sorted (· ≤ ·) := by
  unfold filteredOnsets
  exact List.Pairwise.filter _ (sorted_map_round1_ms h)

theorem mem_filteredOnsets {l : List ℚ} {nb t : ℚ} (h : t ∈ filteredOnsets l nb) :
    nb ≤ t ∧ ∃ u ∈ l, t = round1 (u * 1000) := by
  unfold filteredOnsets at h
  rw [List.mem_filter] at h
  obtain ⟨hmem, hpred⟩ := h
  refine ⟨by simpa using hpred, ?_⟩
  rw [List.mem_map] at hmem
  obtain ⟨v, hv, rfl⟩ := hmem
  rw [List.mem_map] at hv
  obtain ⟨u, hu, rfl⟩ := hv
  exact ⟨u, hu, rfl⟩

theorem filteredOnsets_eq_of_all_kept {l : List ℚ} {nb : ℚ}
    (h : ∀ u ∈ l, nb ≤ round1 (u * 1000)) :
    filteredOnsets l nb = (l.map (fun t => t * 1000)).map round1 := by
  unfold filteredOnsets
  apply List.filter_eq_self.mpr
  intro t ht
  rw [List.mem_map] at ht
  obtain ⟨v, hv, rfl⟩ := ht
  rw [List.mem_map] at hv
  obtain ⟨u, hu, rfl⟩ := hv
  simpa using h u hu

theorem dropWhile_dropWhile_of_imp {p q : ℚ → Bool}
    (himp : ∀ x, q x = true → p x = true) :
    ∀ l : List ℚ, (l.dropWhile q).dropWhile p = l.dropWhile p
  | [] => rfl
  | a :: t => by
      by_cases hq : q a
      · rw [List.dropWhile_cons_of_pos hq, List.dropWhile_cons_of_pos (himp a hq),
          dropWhile_dropWhile_of_imp himp t]
      · rw [List.dropWhile_cons_of_neg hq]

theorem filter_eq_dropWhile_of_sorted {nb : ℚ} :
    ∀ {l : List ℚ}, l.Sorted (· ≤ ·) →
      l.filter (fun t => nb ≤ t) = l.dropWhile (fun t => t < nb)
  | [], _ => rfl
  | a :: t, h => by
      have ht : t.Sorted (· ≤ ·) := h.of_cons
      by_cases ha : nb ≤ a
      · rw [List.filter_cons_of_pos (by simpa using ha),
          List.dropWhile_cons_of_neg (by simpa using not_lt.mpr ha)]
        congr 1
        apply List.filter_eq_self.mpr
        intro x hx
        have hax : a ≤ x := (List.sorted_cons.mp h).1 x hx
        simpa using le_trans ha hax
      · rw [List.filter_cons_of_neg (by simpa using ha),
          List.dropWhile_cons_of_pos (by simpa using not_le.mp ha)]
        exact filter_eq_dropWhile_of_sorted ht

theorem filteredOnsets_suffix_of_sorted {l : List ℚ} (h : l.Sorted (· ≤ ·))
    {T1 T2 : ℚ} (hT : T1 ≤ T2) :
    filteredOnsets l T2 <:+ filteredOnsets l T1 := by
  have hs := sorted_map_round1_ms h
  have himp : ∀ x : ℚ, decide (x < T1) = true → decide (x < T2) = true := by
    intro x hx
    rw [decide_eq_true_eq] at *
    linarith
  unfold filteredOnsets
  rw [filter_eq_dropWhile_of_sorted hs, filter_eq_dropWhile_of_sorted hs,
    ← dropWhile_dropWhile_of_imp himp]
  exact List.dropWhile_suffix _

/-! ### Unfolding equations for the two branches -/

theorem pipeline_false_def (d : List ℚ) (rate : ℕ) (od : List ℚ → ℕ → List ℚ)
    (nb : ℚ) :
    pipelineFromDenoised d rate od nb false =
      match formatMsg (filteredOnsets (od d rate) nb) with
      | .error e => ⟨[], [], .error e⟩
      | .ok msg =>
          ⟨[msg], [], .ok ((filteredOnsets (od d rate) nb).take 3)⟩ := rfl

theorem pipeline_true_def (d : List ℚ) (rate : ℕ) (od : List ℚ → ℕ → List ℚ)
    (nb : ℚ) :
    pipelineFromDenoised d rate od nb true =
      match formatMsg (filteredOnsets (od d rate) nb) with
      | .error e => ⟨[], [], .error e⟩
      | .ok msg =>
          match listMin d, listMax d with
          | some lowest, some highest =>
              ⟨[msg],
                [⟨timeAxis d.length rate, d, filteredOnsets (od d rate) nb,
                  lowest, highest⟩],
                .ok ((filteredOnsets (od d rate) nb).take 3)⟩
          | _, _ => ⟨[msg], [], .error .valueError⟩ := rfl

/-! ### The claims -/

/-- C1 (counterexample): with a detector output of no onsets and
`nothing_before = 0`, the first at-most-three elements of the converted,
rounded, filtered sequence form the empty list, yet `find_speech_onset` does
not return it: it aborts with an `IndexError` instead. -/
theorem C1_cex :
    (find_speech_onset (.ok (8000, [0, 0, 0, 0])) (fun s _ => s)
        (fun _ _ => []) 0 false).result ≠ .ok ((filteredOnsets [] 0).take 3) ∧
    (filteredOnsets [] 0).take 3 = [] ∧
    (find_speech_onset (.ok (8000, [0, 0, 0, 0])) (fun s _ => s)
        (fun _ _ => []) 0 false).result = .error .indexError := by
  with_unfolding_all decide

/-- C1 (amended): whenever `find_speech_onset` returns a value at all (which
requires at least three surviving onsets), the returned sequence is exactly
the first three elements of the sequence obtained by multiplying each
detected onset time by 1000, rounding to one decimal place, and keeping only
the values that are at least `nothing_before`, in their original order; when
fewer than three survive the call raises instead of returning. -/
theorem C1_returns_first_three {rate : ℕ} {raw : List ℤ}
    {reduce_noise onset_detect : List ℚ → ℕ → List ℚ} {nb : ℚ} {pl : Bool}
    {r : List ℚ}
    (h : (find_speech_onset (.ok (rate, raw)) reduce_noise onset_detect
        nb pl).result = .ok r) :
    r = (filteredOnsets
        (onset_detect (denoised_signal reduce_noise raw rate) rate) nb).take 3 := by
  simp only [find_speech_onset] at h
  exact result_ok_imp h

/-- C1 (witness): a run with three surviving onsets, evaluated concretely. -/
theorem C1_returns_first_three_witness :
    (find_speech_onset (.ok (1000, [1, -1, 1, -1])) (fun s _ => s)
        (fun _ _ => [1/10, 2/10, 3/10]) 0 false).result = .ok [100, 200, 300] ∧
    [(100 : ℚ), 200, 300] =
      (filteredOnsets [1/10, 2/10, 3/10] 0).take 3 :=
  ⟨by with_unfolding_all decide,
    @C1_returns_first_three 1000 [1, -1, 1, -1] (fun s _ => s)
      (fun _ _ => [1/10, 2/10, 3/10]) 0 false [100, 200, 300]
      (by with_unfolding_all decide)⟩

/-- C2: when fewer than three onsets survive the `nothing_before` filter, the
call aborts with an `IndexError` raised while the summary f-string indexes
`onsets[2]` (or earlier), before anything is printed, and returns no value —
with `plotted = true` and with `plotted = false` alike. -/
theorem C2_indexError_of_short {rate : ℕ} {raw : List ℤ}
    {reduce_noise onset_detect : List ℚ → ℕ → List ℚ} {nb : ℚ}
    (h : (filteredOnsets (onset_detect (denoised_signal reduce_noise raw rate)
        rate) nb).length < 3) :
    ∀ pl : Bool,
      find_speech_onset (.ok (rate, raw)) reduce_noise onset_detect nb pl =
        ⟨[], [], .error .indexError⟩ := by
  intro pl
  simp only [find_speech_onset]
  exact pipeline_eq_of_short pl h

/-- C2 (witness): one onset at 100 ms with threshold 500 ms leaves zero
survivors; both branches abort with the `IndexError`. -/
theorem C2_indexError_of_short_witness :
    (filteredOnsets [1/10] 500).length < 3 ∧
    find_speech_onset (.ok (1000, [1, -1])) (fun s _ => s)
        (fun _ _ => [1/10]) 500 true = ⟨[], [], .error .indexError⟩ ∧
    find_speech_onset (.ok (1000, [1, -1])) (fun s _ => s)
        (fun _ _ => [1/10]) 500 false = ⟨[], [], .error .indexError⟩ :=
  ⟨by with_unfolding_all decide,
    @C2_indexError_of_short 1000 [1, -1] (fun s _ => s) (fun _ _ => [1/10]) 500
      (by with_unfolding_all decide) true,
    @C2_indexError_of_short 1000 [1, -1] (fun s _ => s) (fun _ _ => [1/10]) 500
      (by with_unfolding_all decide) false⟩

set_option maxRecDepth 4000 in
/-- C3 (code evaluation at the failing input): with sample rate 1000 Hz, a
four-sample signal, identity noise reduction, detector output
`[0.1, 0.2, 0.3]` seconds and `nothing_before = 0`, the plotted branch hands
`plt.vlines` the x positions `[100, 200, 300]` — the onset times in
milliseconds — while the time axis of the very same figure is
`[0, 0.001, 0.002, 0.003]` seconds; the markers are not at the seconds
values `[0.1, 0.2, 0.3]`, so they do not align with the waveform. -/
theorem C3_vlines_in_ms_not_seconds :
    ((find_speech_onset (.ok (1000, [1, -1, 1, -1])) (fun s _ => s)
        (fun _ _ => [1/10, 2/10, 3/10]) 0 true).plots.map PlotData.vlineXs) =
      [[100, 200, 300]] ∧
    ((find_speech_onset (.ok (1000, [1, -1, 1, -1])) (fun s _ => s)
        (fun _ _ => [1/10, 2/10, 3/10]) 0 true).plots.map PlotData.time) =
      [[0, 1/1000, 2/1000, 3/1000]] ∧
    [[(100 : ℚ), 200, 300]] ≠ [[1/10, 2/10, 3/10]] := by
  with_unfolding_all decide

/-- C4 (counterexample): with an empty signal (a zero-frame WAV), identity
noise reduction and a detector output of three onsets, the
`plotted = false` call returns `[1, 2, 3]` while the `plotted = true` call
aborts with the `ValueError` that `np.min` raises on an empty array — the
two flags do not produce identical returned sequences for this input. -/
theorem C4_cex :
    (find_speech_onset (.ok (8000, [])) (fun s _ => s)
        (fun _ _ => [1/1000, 2/1000, 3/1000]) 0 true).result =
      .error .valueError ∧
    (find_speech_onset (.ok (8000, [])) (fun s _ => s)
        (fun _ _ => [1/1000, 2/1000, 3/1000]) 0 false).result =
      .ok [1, 2, 3] := by
  with_unfolding_all decide

/-- C4 (amended): the console output is identical for `plotted = true` and
`plotted = false` on every input, and whenever the denoised signal is
nonempty (so the plotting branch cannot fail in `np.min` / `np.max`), the
returned value is identical as well: the flag then influences only the
visualization side effect. -/
theorem C4_plotted_noninterference {rate : ℕ} {raw : List ℤ}
    {reduce_noise onset_detect : List ℚ → ℕ → List ℚ} {nb : ℚ} :
    (find_speech_onset (.ok (rate, raw)) reduce_noise onset_detect
        nb true).console =
      (find_speech_onset (.ok (rate, raw)) reduce_noise onset_detect
        nb false).console ∧
    (denoised_signal reduce_noise raw rate ≠ [] →
      (find_speech_onset (.ok (rate, raw)) reduce_noise onset_detect
          nb true).result =
        (find_speech_onset (.ok (rate, raw)) reduce_noise onset_detect
          nb false).result) := by
  simp only [find_speech_onset, pipeline_true_def, pipeline_false_def]
  rcases hfm : formatMsg (filteredOnsets
      (onset_detect (denoised_signal reduce_noise raw rate) rate) nb)
    with e | msg
  · exact ⟨rfl, fun _ => rfl⟩
  · refine ⟨?_, ?_⟩
    · rcases hd : denoised_signal reduce_noise raw rate with _ | ⟨x, xs⟩ <;>
        simp [listMin, listMax]
    · intro hne
      obtain ⟨lo, hlo⟩ := listMin_of_ne_nil hne
      obtain ⟨hi, hhi⟩ := listMax_of_ne_nil hne
      rw [hlo, hhi]

/-- C4 (witness): a nonempty two-sample signal, evaluated concretely. -/
theorem C4_plotted_noninterference_witness :
    (find_speech_onset (.ok (1000, [1, -1])) (fun s _ => s)
        (fun _ _ => [1/10, 2/10, 3/10]) 0 true).console =
      (find_speech_onset (.ok (1000, [1, -1])) (fun s _ => s)
        (fun _ _ => [1/10, 2/10, 3/10]) 0 false).console ∧
    (find_speech_onset (.ok (1000, [1, -1])) (fun s _ => s)
        (fun _ _ => [1/10, 2/10, 3/10]) 0 true).result =
      (find_speech_onset (.ok (1000, [1, -1])) (fun s _ => s)
        (fun _ _ => [1/10, 2/10, 3/10]) 0 false).result :=
  ⟨C4_plotted_noninterference.1,
    C4_plotted_noninterference.2 (by with_unfolding_all decide)⟩

/-- C5: whenever `find_speech_onset` returns, every returned timestamp is at
least `nothing_before` and is an integer multiple of 0.1; and when
`nothing_before = 0` and the detector output is ascending, the returned
sequence is non-decreasing and all its elements are nonnegative. -/
theorem C5_numeric_invariants {rate : ℕ} {raw : List ℤ}
    {reduce_noise onset_detect : List ℚ → ℕ → List ℚ} {nb : ℚ} {pl : Bool}
    {r : List ℚ}
    (h : (find_speech_onset (.ok (rate, raw)) reduce_noise onset_detect
        nb pl).result = .ok r) :
    (∀ t ∈ r, nb ≤ t ∧ ∃ k : ℤ, t = (k : ℚ) / 10) ∧
    (nb = 0 →
      (onset_detect (denoised_signal reduce_noise raw rate) rate).Sorted (· ≤ ·) →
      r.Sorted (· ≤ ·) ∧ ∀ t ∈ r, 0 ≤ t) := by
  simp only [find_speech_onset] at h
  have hr := result_ok_imp h
  subst hr
  constructor
  · intro t ht
    have ht' := List.take_subset 3 _ ht
    obtain ⟨hnb, u, hu, rfl⟩ := mem_filteredOnsets ht'
    exact ⟨hnb, round1_tenth _⟩
  · rintro rfl hsorted
    refine ⟨?_, ?_⟩
    · exact List.Pairwise.sublist (List.take_sublist 3 _)
        (filteredOnsets_sorted hsorted 0)
    · intro t ht
      exact (mem_filteredOnsets (List.take_subset 3 _ ht)).1

/-- C5 (witness): a run with ascending detector output `[0.1, 0.2, 0.3]` s
and `nothing_before = 0`, evaluated concretely. -/
theorem C5_numeric_invariants_witness :
    (find_speech_onset (.ok (1000, [1, -1])) (fun s _ => s)
        (fun _ _ => [1/10, 2/10, 3/10]) 0 false).result = .ok [100, 200, 300] ∧
    ((∀ t ∈ [(100 : ℚ), 200, 300], (0 : ℚ) ≤ t ∧ ∃ k : ℤ, t = (k : ℚ) / 10) ∧
      ((0 : ℚ) = 0 → List.Sorted (· ≤ ·) [(1 : ℚ)/10, 2/10, 3/10] →
        List.Sorted (· ≤ ·) [(100 : ℚ), 200, 300] ∧
          ∀ t ∈ [(100 : ℚ), 200, 300], 0 ≤ t)) :=
  ⟨by with_unfolding_all decide,
    @C5_numeric_invariants 1000 [1, -1] (fun s _ => s)
      (fun _ _ => [1/10, 2/10, 3/10]) 0 false [100, 200, 300]
      (by with_unfolding_all decide)⟩

/-- C6: whenever `find_speech_onset` returns, the returned sequence has at
most three elements, and when at least three onsets survive the
`nothing_before` filter it has exactly three. -/
theorem C6_length_bounds {rate : ℕ} {raw : List ℤ}
    {reduce_noise onset_detect : List ℚ → ℕ → List ℚ} {nb : ℚ} {pl : Bool}
    {r : List ℚ}
    (h : (find_speech_onset (.ok (rate, raw)) reduce_noise onset_detect
        nb pl).result = .ok r) :
    r.length ≤ 3 ∧
    (3 ≤ (filteredOnsets (onset_detect (denoised_signal reduce_noise raw rate)
        rate) nb).length → r.length = 3) := by
  simp only [find_speech_onset] at h
  have hr := result_ok_imp h
  subst hr
  constructor
  · rw [List.length_take]
    exact min_le_left _ _
  · intro hge
    rw [List.length_take]
    omega

/-- C6 (witness): four onsets survive; the returned sequence has length 3. -/
theorem C6_length_bounds_witness :
    (find_speech_onset (.ok (1000, [1, -1])) (fun s _ => s)
        (fun _ _ => [1/10, 2/10, 3/10, 4/10]) 0 false).result =
      .ok [100, 200, 300] ∧
    ([(100 : ℚ), 200, 300].length ≤ 3 ∧
      (3 ≤ (filteredOnsets [(1 : ℚ)/10, 2/10, 3/10, 4/10] 0).length →
        [(100 : ℚ), 200, 300].length = 3)) :=
  ⟨by with_unfolding_all decide,
    @C6_length_bounds 1000 [1, -1] (fun s _ => s)
      (fun _ _ => [1/10, 2/10, 3/10, 4/10]) 0 false [100, 200, 300]
      (by with_unfolding_all decide)⟩

/-- C7: for an ascending detector output and thresholds `T1 < T2`, the
converted, rounded onset list filtered at `T2` is a suffix of the same list
filtered at `T1`: raising the threshold only removes early onsets and never
introduces an earlier timestamp or reorders the survivors. -/
theorem C7_threshold_suffix {onsets : List ℚ} (hsorted : onsets.Sorted (· ≤ ·))
    {T1 T2 : ℚ} (hT : T1 < T2) :
    filteredOnsets onsets T2 <:+ filteredOnsets onsets T1 :=
  filteredOnsets_suffix_of_sorted hsorted (le_of_lt hT)

/-- C7 (witness): onsets at 1 s and 2 s; threshold 1500 ms keeps `[2000]`,
a suffix of `[1000, 2000]` kept at threshold 0. -/
theorem C7_threshold_suffix_witness :
    List.Sorted (· ≤ ·) [(1 : ℚ), 2] ∧ (0 : ℚ) < 1500 ∧
    filteredOnsets [(1 : ℚ), 2] 1500 <:+ filteredOnsets [(1 : ℚ), 2] 0 :=
  ⟨by with_unfolding_all decide, by norm_num,
    C7_threshold_suffix (by with_unfolding_all decide) (by norm_num)⟩

/-- C8: the loaded signal is never mutated — the embedding is purely
functional, so each step yields a new value; under the noise reducer's
documented contract the denoised signal has the same length as the
float-converted input (which itself has one sample per raw sample); and
every later step reads only the denoised copy: two runs at the same rate
whose denoised signals coincide have identical console output, plots and
result, whatever their raw signals were. -/
theorem C8_frame_effect {rate : ℕ} {raw : List ℤ}
    {reduce_noise : List ℚ → ℕ → List ℚ}
    (hcontract : ∀ s r, (reduce_noise s r).length = s.length) :
    (denoised_signal reduce_noise raw rate).length = (floatSignal raw).length ∧
    (floatSignal raw).length = raw.length ∧
    ∀ (raw₂ : List ℤ) (rn₂ od : List ℚ → ℕ → List ℚ) (nb : ℚ) (pl : Bool),
      denoised_signal rn₂ raw₂ rate = denoised_signal reduce_noise raw rate →
      find_speech_onset (.ok (rate, raw₂)) rn₂ od nb pl =
        find_speech_onset (.ok (rate, raw)) reduce_noise od nb pl := by
  refine ⟨hcontract _ _, ?_, ?_⟩
  · exact List.length_map raw _
  · intro raw₂ rn₂ od nb pl hden
    simp only [find_speech_onset, hden]

/-- C8 (witness): identity noise reduction on a two-sample signal, compared
with a run on a different raw signal whose denoised copy is forced equal. -/
theorem C8_frame_effect_witness :
    (∀ (s : List ℚ) (r : ℕ), ((fun (s : List ℚ) (_ : ℕ) => s) s r).length =
      s.length) ∧
    ((denoised_signal (fun s _ => s) [5, 7] 1000).length =
        (floatSignal [5, 7]).length ∧
      (floatSignal [5, 7]).length = [(5 : ℤ), 7].length ∧
      ∀ (raw₂ : List ℤ) (rn₂ od : List ℚ → ℕ → List ℚ) (nb : ℚ) (pl : Bool),
        denoised_signal rn₂ raw₂ 1000 = denoised_signal (fun s _ => s) [5, 7] 1000 →
        find_speech_onset (.ok (1000, raw₂)) rn₂ od nb pl =
          find_speech_onset (.ok (1000, [5, 7])) (fun s _ => s) od nb pl) :=
  ⟨fun _ _ => rfl, @C8_frame_effect 1000 [5, 7] (fun s _ => s) (fun _ _ => rfl)⟩

/-- C9: when the WAV decoder fails (missing, unreadable or invalid file),
`find_speech_onset` propagates that very error unmodified, prints nothing,
shows no plot and returns no value — the failure precedes every later
pipeline step. -/
theorem C9_decode_error_propagates (e : PyError)
    (reduce_noise onset_detect : List ℚ → ℕ → List ℚ) (nb : ℚ) (pl : Bool) :
    find_speech_onset (.error e) reduce_noise onset_detect nb pl =
      ⟨[], [], .error e⟩ := rfl

/-- C10: `nothing_before` is never validated; when every detected onset time
is nonnegative, a negative threshold filters out nothing, and the whole call
behaves exactly as with `nothing_before = 0` — same console output, same
plot, same returned value. -/
theorem C10_negative_threshold {rate : ℕ} {raw : List ℤ}
    {reduce_noise onset_detect : List ℚ → ℕ → List ℚ} {nb : ℚ}
    (hneg : nb < 0)
    (hpos : ∀ t ∈ onset_detect (denoised_signal reduce_noise raw rate) rate,
      0 ≤ t) :
    filteredOnsets (onset_detect (denoised_signal reduce_noise raw rate) rate)
        nb =
      ((onset_detect (denoised_signal reduce_noise raw rate) rate).map
        (fun t => t * 1000)).map round1 ∧
    ∀ pl : Bool,
      find_speech_onset (.ok (rate, raw)) reduce_noise onset_detect nb pl =
        find_speech_onset (.ok (rate, raw)) reduce_noise onset_detect 0 pl := by
  have hkept0 : ∀ u ∈ onset_detect (denoised_signal reduce_noise raw rate) rate,
      (0 : ℚ) ≤ round1 (u * 1000) := fun u hu =>
    round1_nonneg (mul_nonneg (hpos u hu) (by norm_num))
  have hkept : ∀ u ∈ onset_detect (denoised_signal reduce_noise raw rate) rate,
      nb ≤ round1 (u * 1000) := fun u hu =>
    le_trans (le_of_lt hneg) (hkept0 u hu)
  have he : filteredOnsets
      (onset_detect (denoised_signal reduce_noise raw rate) rate) nb =
      filteredOnsets
        (onset_detect (denoised_signal reduce_noise raw rate) rate) 0 := by
    rw [filteredOnsets_eq_of_all_kept hkept, filteredOnsets_eq_of_all_kept hkept0]
  refine ⟨filteredOnsets_eq_of_all_kept hkept, ?_⟩
  intro pl
  simp only [find_speech_onset]
  exact pipeline_congr_filtered pl he

/-- C10 (witness): threshold `-5` on nonnegative onsets behaves exactly like
threshold `0`, evaluated concretely. -/
theorem C10_negative_threshold_witness :
    ((-5 : ℚ) < 0 ∧
      ∀ t ∈ [(1 : ℚ)/10, 2/10, 3/10], (0 : ℚ) ≤ t) ∧
    (filteredOnsets [(1 : ℚ)/10, 2/10, 3/10] (-5) =
        ([(1 : ℚ)/10, 2/10, 3/10].map (fun t => t * 1000)).map round1 ∧
      ∀ pl : Bool,
        find_speech_onset (.ok (1000, [1, -1])) (fun s _ => s)
            (fun _ _ => [1/10, 2/10, 3/10]) (-5) pl =
          find_speech_onset (.ok (1000, [1, -1])) (fun s _ => s)
            (fun _ _ => [1/10, 2/10, 3/10]) 0 pl) :=
  ⟨⟨by norm_num, by with_unfolding_all decide⟩,
    @C10_negative_threshold 1000 [1, -1] (fun s _ => s)
      (fun _ _ => [1/10, 2/10, 3/10]) (-5) (by norm_num)
      (by with_unfolding_all decide)⟩

end DetectOnset
